import Mathlib

/-!
Shallow embedding of the torc scheduler control plane
(state actor, offer matcher, health supervisor) for verification.
-/

namespace Torc

/-- Task lifecycle state, from `src/state/state.rs` (`enum TaskState`). -/
inductive TaskState where
  | NotRunning
  | Requested
  | Accepted
  | Running
deriving DecidableEq, Repr

/-- Placement SLA, from `src/state/task_list.rs` (`enum SLA`). -/
inductive SLA where
  | None
  | SingletonEachNode
  | SingletonEachSlave
deriving DecidableEq, Repr

/-- Container volume record, from `src/state/task_list.rs` (`struct Volume`). -/
structure Volume where
  host_path : String
  container_path : String
  read_only_mode : Bool
deriving DecidableEq, Repr

/-- Task record, from `src/state/task_list.rs` (`struct Task`).
`f64` resource fields are modelled as rationals. -/
structure Task where
  name : String
  controller : String
  id : String
  image : String
  node_name : String
  node_type : String
  node_function : String
  dependent_service : String
  arguments : String
  parameters : String
  memory : Rat
  cpu : Rat
  volumes : List Volume
  privileged : Bool
  sla : SLA
  is_metered : Bool
  is_system_service : Bool
  is_job : Bool
  network_type : String
  ip : String
  slave_id : String
  state : TaskState
  last_update : Int
deriving DecidableEq, Repr

/-- Node record, from `src/state/node_list.rs` (`struct Node`). -/
structure Node where
  name : String
  ip : String
  external_ip : String
  management_ip : String
  node_type : String
  node_function : String
  active : Bool
  slave_id : String
  port_id : Int
  reachable : Bool
deriving DecidableEq, Repr

/-- The attribute/resource data the offer loop extracts from one offer
(`src/scheduler/scheduler_impl.rs`, lines 82-98). -/
structure OfferAttrs where
  host : String
  node_name : String
  node_type : String
  node_function : String
  cpus : Rat
  mem : Rat
deriving DecidableEq, Repr

/-! ## Task table (`src/state/task_list.rs`) -/

/-- The task table: a key-unique association list modelling the
`HashMap<String, Task>` inside `TaskList`. -/
abbrev TaskTable := List (String × Task)

/-- `TaskList::add_new_task`: `HashMap::insert` keyed by `task.name`,
replacing any existing binding. -/
def add_new_task (tbl : TaskTable) (task : Task) : TaskTable :=
  (task.name, task) :: tbl.filter (fun p => p.1 ≠ task.name)

/-- `TaskList::remove_task_by_name`: `HashMap::remove`. -/
def remove_task_by_name (tbl : TaskTable) (task_name : String) : TaskTable :=
  tbl.filter (fun p => p.1 ≠ task_name)

/-- The `get_mut`-and-update pattern shared by the `set_task_*` functions:
apply `f` to the task bound to `task_name`, leave everything else alone; a
missing name is a no-op. -/
def modify_entry (tbl : TaskTable) (task_name : String) (f : Task → Task) : TaskTable :=
  tbl.map (fun p => if p.1 = task_name then (p.1, f p.2) else p)

/-- `TaskList::set_task_state`: `get_mut` on the name and overwrite `state`;
a missing name is a no-op. -/
def set_task_state (tbl : TaskTable) (task_name : String) (task_state : TaskState) :
    TaskTable :=
  modify_entry tbl task_name (fun task => { task with state := task_state })

/-- `TaskList::set_task_node_name`: overwrite `node_name`; missing name is a no-op. -/
def set_task_node_name (tbl : TaskTable) (task_name : String) (node_name : String) :
    TaskTable :=
  modify_entry tbl task_name (fun task => { task with node_name := node_name })

/-- The field update performed by `TaskList::set_task_info` on the found task:
each of `id`, `ip`, `slave_id` is overwritten only when the argument is non-empty. -/
def task_info_update (task : Task) (task_id task_ip slave_id : String) : Task :=
  { task with
    id := if 0 < task_id.length then task_id else task.id,
    ip := if 0 < task_ip.length then task_ip else task.ip,
    slave_id := if 0 < slave_id.length then slave_id else task.slave_id }

/-- `TaskList::set_task_info`: `get_mut` on the name and conditionally overwrite
`id`, `ip`, `slave_id`; a missing name is a no-op. -/
def set_task_info (tbl : TaskTable) (task_name task_id task_ip slave_id : String) :
    TaskTable :=
  modify_entry tbl task_name (fun task => task_info_update task task_id task_ip slave_id)

/-- `TaskList::get_task_state`: lookup, `NotRunning` when absent. -/
def get_task_state (tbl : TaskTable) (task_name : String) : TaskState :=
  match tbl.lookup task_name with
  | some task => task.state
  | none => TaskState.NotRunning

/-- `TaskList::get_tasks_with_state`: iterate the map values and keep those whose
`state` equals the given one. -/
def get_tasks_with_state (tbl : TaskTable) (task_state : TaskState) : List Task :=
  (tbl.map Prod.snd).filter (fun task => task.state = task_state)

/-! ## State actor request handlers (`src/state/state.rs`) -/

/-- `StateManager::resolve_arguments`: rewrite the placeholder tokens in the
argument string before the task enters the actor.  The live lookup
`request_task_ip_by_name("dns-sl1")` is passed in as `dns_sl1_ip`; when the
placeholder is absent the conditional replace of the source is the identity,
which the unconditional replace also is. -/
def resolve_arguments (master_ip dns_sl1_ip : String) (argument : String) : String :=
  if argument.length = 0 then argument
  else (argument.replace "$MASTER_IP" master_ip).replace "$IP_DNS_SL1" dns_sl1_ip

/-- `StateManager::send_start_task`: build a fresh `Task` from the descriptor
fields with empty `id`/`ip`/`slave_id` and state `Requested`, then
`StartTask` inserts it via `TaskList::add_new_task`.  The descriptor fields
are taken from `d`; `resolved_args` is the output of `resolve_arguments`. -/
def send_start_task (tbl : TaskTable) (d : Task) (my_name : String)
    (resolved_args : String) (now : Int) : TaskTable :=
  add_new_task tbl
    { name := d.name
      controller := my_name
      id := ""
      image := d.image
      node_name := d.node_name
      node_type := d.node_type
      node_function := d.node_function
      dependent_service := d.dependent_service
      arguments := resolved_args
      parameters := d.parameters
      memory := d.memory
      cpu := d.cpu
      volumes := d.volumes
      privileged := d.privileged
      sla := d.sla
      is_metered := d.is_metered
      is_system_service := d.is_system_service
      is_job := d.is_job
      network_type := d.network_type
      ip := ""
      slave_id := ""
      state := TaskState.Requested
      last_update := now }

/-! ## Node table (`src/state/node_list.rs`) and the GetNode path -/

/-- The node table: key-unique association list for `HashMap<String, Node>`. -/
abbrev NodeTable := List (String × Node)

/-- `NodeList::get_node`: `Ok(node)` when present, `Err` when absent. -/
def node_list_get_node (nt : NodeTable) (node_name : String) : Except String Node :=
  match nt.lookup node_name with
  | some node => Except.ok node
  | none => Except.error "cannot find node"

/-- `StateManager::get_node` (the actor-side GetNode handler): it calls
`node_list.get_node(..).unwrap()`, so an `Err` result makes the actor thread
panic.  `Except.error` models the panic; `Except.ok` models the
`GetNode` reply carrying the node. -/
def state_get_node (nt : NodeTable) (node_name : String) : Except String Node :=
  match node_list_get_node nt node_name with
  | Except.ok node => Except.ok node
  | Except.error e => Except.error ("panic: unwrap on Err: " ++ e)

/-- `StateManager::request_node` (the caller side): a `GetNode` reply maps to
`Some(node)`; if the actor panicked, the caller blocks on a dead channel and
its own `recv().unwrap()` panics, so the error propagates.  The `None` arm of
the source is reachable only through a non-`GetNode` reply, which the handler
never sends. -/
def request_node (nt : NodeTable) (node_name : String) : Except String (Option Node) :=
  match state_get_node nt node_name with
  | Except.ok node => Except.ok (some node)
  | Except.error e => Except.error e

/-! ## Offer matching (`src/scheduler/scheduler_impl.rs`, `offers`) -/

/-- The per-task test of the inner matching loop (lines 113-136): a task
survives all the `continue` guards iff none of the skip conditions fires.
`dep` gives the live `request_task_state` answer for the dependency lookup. -/
def taskMatches (dep : String → TaskState) (o : OfferAttrs) (t : Task) : Bool :=
  if 0 < t.node_name.length ∧ t.node_name ≠ o.node_name then false
  else if 0 < t.node_type.length ∧ t.node_type ≠ o.node_type then false
  else if 0 < t.node_function.length ∧ t.node_function ≠ o.node_function then false
  else if 0 < t.dependent_service.length ∧ dep t.dependent_service ≠ TaskState.Running then
    false
  else if o.cpus < t.cpu ∨ o.mem < t.memory then false
  else true

/-- The inner loop of `offers`: scan the requested-task snapshot in order and
return the first task that passes every guard (the loop `break`s on the first
match). -/
def findMatch (dep : String → TaskState) (o : OfferAttrs) : List Task → Option Task
  | [] => none
  | t :: rest => if taskMatches dep o t then some t else findMatch dep o rest

/-- The spec-side matching condition, stated from the words of the
specification (placement filters, dependency gate, resource fit); to be
compared against `taskMatches`, which is translated from the source. -/
def matchesSpec (dep : String → TaskState) (o : OfferAttrs) (t : Task) : Prop :=
  (t.node_name ≠ "" → t.node_name = o.node_name) ∧
  (t.node_type ≠ "" → t.node_type = o.node_type) ∧
  (t.node_function ≠ "" → t.node_function = o.node_function) ∧
  (t.dependent_service ≠ "" → dep t.dependent_service = TaskState.Running) ∧
  t.cpu ≤ o.cpus ∧ t.memory ≤ o.mem

/-- The outer loop of `offers` over one batch, restricted to its bookkeeping:
for each offer (given as id paired with its extracted attributes) scan the
one `requested_tasks` snapshot, and accumulate the matched task names
(`tasks_to_start`), accepted offer ids and declined offer ids in order.
The snapshot is never pruned between offers. -/
def offersLoop (dep : String → TaskState) (requested : List Task)
    (offers : List (String × OfferAttrs)) : List String × List String × List String :=
  offers.foldl
    (fun acc o =>
      match findMatch dep o.2 requested with
      | some t => (acc.1 ++ [t.name], acc.2.1 ++ [o.1], acc.2.2)
      | none => (acc.1, acc.2.1, acc.2.2 ++ [o.1]))
    ([], [], [])

/-! ## Launch descriptor pieces (`offers`, lines 173-207) -/

/-- The docker network enum of the launch descriptor. -/
inductive DockerNetwork where
  | HOST
  | BRIDGE
  | NONE
deriving DecidableEq, Repr

/-- The `match &*task.network_type` block (lines 173-181): a recognized mode
sets the enum and leaves `parameters` alone; any other string sets no enum and
appends a space plus `--net=` plus the string to `task.parameters`. -/
def apply_network_type (network_type parameters : String) :
    Option DockerNetwork × String :=
  match network_type with
  | "host" => (some DockerNetwork.HOST, parameters)
  | "bridge" => (some DockerNetwork.BRIDGE, parameters)
  | "none" => (some DockerNetwork.NONE, parameters)
  | _ => (none, parameters ++ " --net=" ++ network_type)

/-- Character-predicate split with the semantics of Rust `str::split` (and of
`String.split`): the pieces between separator occurrences, empty pieces
included, so a string of n separators yields n+1 pieces. -/
def splitChars (p : Char → Bool) : List Char → List (List Char)
  | [] => [[]]
  | c :: rest =>
    if p c then [] :: splitChars p rest
    else
      match splitChars p rest with
      | [] => [[c]]
      | piece :: pieces => (c :: piece) :: pieces

/-- The separator set of the parameters tokenizer (line 185). -/
def isParamSep (c : Char) : Bool :=
  c = '-' ∨ c = '=' ∨ c = ' '

/-- The parameters tokenizer (lines 184-187): split the string on the
characters `-`, `=`, space and drop the empty pieces.  Strings are embedded
as their character lists. -/
def tokenize (s : List Char) : List (List Char) :=
  (splitChars isParamSep s).filter (fun t => ¬ t.isEmpty)

/-- The key/value pairing loop (lines 189-204).  It is a do-while: each pass
indexes `elmts[count]` and `elmts[count+1]` unconditionally, then stops when
`count` reaches the length.  `none` models the out-of-bounds panic of the
indexing; `some ps` the collected `(key, value)` pairs. -/
def pairLoop {α : Type} : List α → Option (List (α × α))
  | [] => none
  | [_] => none
  | k :: v :: rest =>
    if rest.isEmpty then some [(k, v)]
    else (pairLoop rest).map (fun ps => (k, v) :: ps)

/-! ## RUNNING status handling (`src/utils/docker.rs` and `update`) -/

/-- `handle_inspect_data` after JSON field extraction: `torc_ip` is the
`NetworkSettings.Networks.torc.IPAddress` value when the path is present.
When it is absent or empty, fall back through `request_node` on the inspect
`Hostname`; the error of `request_node` (the actor panic) propagates to the
caller.  Ends with `send_update_task_info`. -/
def handle_inspect_data (nt : NodeTable) (tbl : TaskTable)
    (task_name id hostname : String) (torc_ip : Option String) (slave_id : String) :
    Except String TaskTable := do
  let new_ip := match torc_ip with
    | none => ""
    | some ip => ip
  let new_ip ← (if new_ip.length = 0 then
      match request_node nt hostname with
      | Except.ok (some node) => Except.ok node.ip
      | Except.ok none => Except.ok new_ip
      | Except.error e => Except.error e
    else Except.ok new_ip)
  Except.ok (set_task_info tbl task_name id new_ip slave_id)

/-- The `TASK_RUNNING` arm of `TorcScheduler::update` (lines 269-277):
run `handle_inspect_data`, then `send_update_task_state(.., Running)`. -/
def handle_running_update (nt : NodeTable) (tbl : TaskTable)
    (task_name id hostname : String) (torc_ip : Option String) (slave_id : String) :
    Except String TaskTable := do
  let tbl' ← handle_inspect_data nt tbl task_name id hostname torc_ip slave_id
  Except.ok (set_task_state tbl' task_name TaskState.Running)

/-! ## Health supervisor SLA expansion (`src/health/run_health_checker.rs`) -/

/-- The SLA expansion of one declared system service over the node list
(lines 42-65): `None` keeps the task; `SingletonEachNode` clones it per node,
setting `node_name` and suffixing the name; `SingletonEachSlave` does the same
but skips nodes whose `node_type` is not `"slave"`. -/
def expand_sla (nodes : List Node) (task : Task) : List Task :=
  match task.sla with
  | SLA.None => [task]
  | SLA.SingletonEachNode =>
    nodes.map (fun node =>
      { task with node_name := node.name, name := task.name ++ "-" ++ node.name })
  | SLA.SingletonEachSlave =>
    (nodes.filter (fun node => node.node_type = "slave")).map (fun node =>
      { task with node_name := node.name, name := task.name ++ "-" ++ node.name })

/-! ## Reachable task tables (for the partition invariant) -/

/-- The task-table states reachable through the operations the program
actually issues: `StartTask` (admin start / health restart),
`UpdateTaskState` with `Accepted` (offer match) or `Running` (RUNNING status),
`UpdateTaskNodeName`, `UpdateTaskInfo`, and `RemoveTask` (KILLED status),
starting from the empty table. -/
inductive Reachable : TaskTable → Prop where
  | empty : Reachable []
  | start (tbl : TaskTable) (d : Task) (my_name resolved_args : String) (now : Int) :
      Reachable tbl → Reachable (send_start_task tbl d my_name resolved_args now)
  | accept (tbl : TaskTable) (task_name : String) :
      Reachable tbl → Reachable (set_task_state tbl task_name TaskState.Accepted)
  | run (tbl : TaskTable) (task_name : String) :
      Reachable tbl → Reachable (set_task_state tbl task_name TaskState.Running)
  | nodeName (tbl : TaskTable) (task_name node_name : String) :
      Reachable tbl → Reachable (set_task_node_name tbl task_name node_name)
  | info (tbl : TaskTable) (task_name task_id task_ip slave_id : String) :
      Reachable tbl →
      Reachable (set_task_info tbl task_name task_id task_ip slave_id)
  | remove (tbl : TaskTable) (task_name : String) :
      Reachable tbl → Reachable (remove_task_by_name tbl task_name)

/-! ## Concrete fixtures used by witnesses and counterexamples -/

/-- A slave-type node fixture. -/
def node1 : Node :=
  { name := "node-1", ip := "10.0.0.1", external_ip := "", management_ip := "",
    node_type := "slave", node_function := "compute", active := true,
    slave_id := "S1", port_id := 0, reachable := false }

/-- A master-type node fixture (not of slave type). -/
def nodeM : Node :=
  { name := "node-m", ip := "10.0.0.2", external_ip := "", management_ip := "",
    node_type := "master", node_function := "control", active := true,
    slave_id := "S2", port_id := 0, reachable := false }

/-- An unconstrained requested task fixture. -/
def taskW : Task :=
  { name := "dns-a", controller := "torc-controller", id := "", image := "dns:1",
    node_name := "", node_type := "", node_function := "", dependent_service := "",
    arguments := "", parameters := "", memory := 64, cpu := 1, volumes := [],
    privileged := false, sla := SLA.None, is_metered := false,
    is_system_service := false, is_job := false, network_type := "bridge",
    ip := "", slave_id := "", state := TaskState.Requested, last_update := 0 }

/-- Offer attributes fixture whose resources exactly equal the fixture task
requirements. -/
def offerW : OfferAttrs :=
  { host := "h1", node_name := "node-1", node_type := "slave",
    node_function := "compute", cpus := 1, mem := 64 }

/-- A dependency-state oracle under which nothing is running. -/
def depW : String → TaskState := fun _ => TaskState.NotRunning

/-- A node table holding only `node1`. -/
def nodeTableW : NodeTable := [("node-1", node1)]

/-- A task table holding only `taskW`. -/
def taskTableW : TaskTable := [("dns-a", taskW)]

/-- The table obtained by starting `taskW` on the empty table. -/
def tblStart : TaskTable := send_start_task [] taskW "torc-controller" "" 0

/-- A system-service task fixture carrying the SingletonEachSlave SLA. -/
def taskS : Task := { taskW with name := "coredns", sla := SLA.SingletonEachSlave }

/-! ## Helper lemmas -/

theorem string_length_pos (s : String) : 0 < s.length ↔ s ≠ "" := by
  constructor
  · intro h heq
    subst heq
    exact absurd h (by decide)
  · intro h
    rcases Nat.eq_zero_or_pos s.length with h0 | hpos
    · exfalso
      apply h
      cases s with
      | mk data =>
        cases data with
        | nil => rfl
        | cons c cs => simp [String.length] at h0
    · exact hpos

theorem lookup_cons (a k : String) (v : Task) (l : TaskTable) :
    List.lookup a ((k, v) :: l) = if a = k then some v else List.lookup a l := by
  by_cases h : a = k
  · subst h
    simp [List.lookup]
  · have hb : (a == k) = false := by simp [h]
    simp [List.lookup, hb, h]

theorem modify_entry_cons (k' : String) (v : Task) (tl : TaskTable) (k : String)
    (f : Task → Task) :
    modify_entry ((k', v) :: tl) k f =
      (if k' = k then (k', f v) else (k', v)) :: modify_entry tl k f := by
  by_cases h : k' = k
  · simp [modify_entry, h]
  · simp [modify_entry, h]

theorem lookup_modify_entry_self (tbl : TaskTable) (k : String) (f : Task → Task) :
    (modify_entry tbl k f).lookup k = (tbl.lookup k).map f := by
  induction tbl with
  | nil => rfl
  | cons hd tl ih =>
    obtain ⟨k', v⟩ := hd
    rw [modify_entry_cons]
    by_cases h : k' = k
    · subst h
      rw [if_pos rfl, lookup_cons, lookup_cons, if_pos rfl, if_pos rfl]
      rfl
    · have hk : k ≠ k' := Ne.symm h
      rw [if_neg h, lookup_cons, lookup_cons, if_neg hk, if_neg hk]
      exact ih

theorem lookup_modify_entry_ne (tbl : TaskTable) (k other : String) (f : Task → Task)
    (h : other ≠ k) :
    (modify_entry tbl k f).lookup other = tbl.lookup other := by
  induction tbl with
  | nil => rfl
  | cons hd tl ih =>
    obtain ⟨k', v⟩ := hd
    rw [modify_entry_cons]
    by_cases hk : k' = k
    · subst hk
      rw [if_pos rfl, lookup_cons, lookup_cons, if_neg h, if_neg h]
      exact ih
    · rw [if_neg hk]
      by_cases ho : other = k'
      · subst ho
        rw [lookup_cons, lookup_cons, if_pos rfl, if_pos rfl]
      · rw [lookup_cons, lookup_cons, if_neg ho, if_neg ho]
        exact ih

theorem modify_entry_lookup_none (tbl : TaskTable) (k : String) (f : Task → Task)
    (h : tbl.lookup k = none) : modify_entry tbl k f = tbl := by
  induction tbl with
  | nil => rfl
  | cons hd tl ih =>
    obtain ⟨k', v⟩ := hd
    rw [lookup_cons] at h
    by_cases hk : k = k'
    · rw [if_pos hk] at h
      exact absurd h (by simp)
    · rw [if_neg hk] at h
      rw [modify_entry_cons, if_neg (fun he => hk (Eq.symm he)), ih h]

theorem lookup_add_new_task_self (tbl : TaskTable) (t : Task) :
    (add_new_task tbl t).lookup t.name = some t := by
  simp [add_new_task, List.lookup]

/-!
## C5 — StartTask inserts or overwrites in state Requested
-/

/-- C5: for every task descriptor and every prior table contents,
`StartTask` binds the descriptor name to the freshly built record in state
`Requested` (empty `id`/`ip`/`slave_id`), so `GetTaskState` on that name
returns `Requested` immediately afterwards — also when a task with that name
was already present in any state. -/
theorem c5_start_task_requested (tbl : TaskTable) (d : Task)
    (my_name resolved_args : String) (now : Int) :
    get_task_state (send_start_task tbl d my_name resolved_args now) d.name =
      TaskState.Requested ∧
    (send_start_task tbl d my_name resolved_args now).lookup d.name =
      some { d with
               controller := my_name
               id := ""
               arguments := resolved_args
               ip := ""
               slave_id := ""
               state := TaskState.Requested
               last_update := now } := by
  unfold send_start_task get_task_state add_new_task
  simp [List.lookup]

/-!
## C6 — network_type handling in the launch descriptor
-/

/-- C6: a `network_type` of exactly `host`, `bridge` or `none` sets the
corresponding docker network enum and leaves the parameters untouched; any
other string sets no enum and appends a space plus `--net=` plus the string
to the parameters. -/
theorem c6_network_type (network_type parameters : String) :
    (network_type = "host" →
      apply_network_type network_type parameters = (some DockerNetwork.HOST, parameters)) ∧
    (network_type = "bridge" →
      apply_network_type network_type parameters = (some DockerNetwork.BRIDGE, parameters)) ∧
    (network_type = "none" →
      apply_network_type network_type parameters = (some DockerNetwork.NONE, parameters)) ∧
    (network_type ≠ "host" → network_type ≠ "bridge" → network_type ≠ "none" →
      apply_network_type network_type parameters =
        (none, parameters ++ " --net=" ++ network_type)) := by
  refine ⟨fun h => by subst h; rfl, fun h => by subst h; rfl, fun h => by subst h; rfl,
    fun h1 h2 h3 => ?_⟩
  unfold apply_network_type
  split
  · exact absurd rfl h1
  · exact absurd rfl h2
  · exact absurd rfl h3
  · rfl

/-- Witness for C6 at the concrete input of the specification boundary case:
`network_type = "custom"` falls through and augments the parameters. -/
theorem c6_witness :
    ("custom" : String) ≠ "host" ∧ ("custom" : String) ≠ "bridge" ∧
    ("custom" : String) ≠ "none" ∧
    apply_network_type "custom" "--p=q" = (none, "--p=q --net=custom") := by
  refine ⟨by decide, by decide, by decide, ?_⟩
  exact (c6_network_type "custom" "--p=q").2.2.2 (by decide) (by decide) (by decide)

/-!
## C8 — UpdateTaskInfo overwrites exactly the non-empty fields
-/

/-- C8: `UpdateTaskInfo(name, id, ip, slave_id)` leaves every other key of
the table untouched; on a missing name the whole table is unchanged; on an
existing task it rebinds the name to the field update, and that update
overwrites `id`, `ip`, `slave_id` exactly when the corresponding argument is
non-empty while every other field of the task is unchanged. -/
theorem c8_update_task_info (tbl : TaskTable)
    (task_name task_id task_ip slave_id : String) :
    (∀ other, other ≠ task_name →
      (set_task_info tbl task_name task_id task_ip slave_id).lookup other =
        tbl.lookup other) ∧
    (tbl.lookup task_name = none →
      set_task_info tbl task_name task_id task_ip slave_id = tbl) ∧
    (∀ t, tbl.lookup task_name = some t →
      (set_task_info tbl task_name task_id task_ip slave_id).lookup task_name =
        some (task_info_update t task_id task_ip slave_id)) ∧
    (∀ t,
      (task_id ≠ "" → (task_info_update t task_id task_ip slave_id).id = task_id) ∧
      (task_id = "" → (task_info_update t task_id task_ip slave_id).id = t.id) ∧
      (task_ip ≠ "" → (task_info_update t task_id task_ip slave_id).ip = task_ip) ∧
      (task_ip = "" → (task_info_update t task_id task_ip slave_id).ip = t.ip) ∧
      (slave_id ≠ "" →
        (task_info_update t task_id task_ip slave_id).slave_id = slave_id) ∧
      (slave_id = "" →
        (task_info_update t task_id task_ip slave_id).slave_id = t.slave_id) ∧
      (task_info_update t task_id task_ip slave_id).name = t.name ∧
      (task_info_update t task_id task_ip slave_id).state = t.state ∧
      (task_info_update t task_id task_ip slave_id).node_name = t.node_name ∧
      (task_info_update t task_id task_ip slave_id).image = t.image ∧
      (task_info_update t task_id task_ip slave_id).arguments = t.arguments ∧
      (task_info_update t task_id task_ip slave_id).parameters = t.parameters) := by
  refine ⟨?_, ?_, ?_, ?_⟩
  · intro other ho
    exact lookup_modify_entry_ne tbl task_name other _ ho
  · intro h
    exact modify_entry_lookup_none tbl task_name _ h
  · intro t h
    show (modify_entry tbl task_name _).lookup task_name = _
    rw [lookup_modify_entry_self, h]
    rfl
  · intro t
    refine ⟨?_, ?_, ?_, ?_, ?_, ?_, rfl, rfl, rfl, rfl, rfl, rfl⟩
    · intro h
      simp [task_info_update, (string_length_pos task_id).mpr h]
    · intro h
      subst h
      simp [task_info_update]
    · intro h
      simp [task_info_update, (string_length_pos task_ip).mpr h]
    · intro h
      subst h
      simp [task_info_update]
    · intro h
      simp [task_info_update, (string_length_pos slave_id).mpr h]
    · intro h
      subst h
      simp [task_info_update]

/-- Witness for C8 at a concrete table: a non-empty id and slave id are
stored, the empty ip argument leaves the ip alone, and an unrelated key is
untouched. -/
theorem c8_witness :
    taskTableW.lookup "dns-a" = some taskW ∧
    (set_task_info taskTableW "dns-a" "c0ffee" "" "S1").lookup "dns-a" =
      some (task_info_update taskW "c0ffee" "" "S1") ∧
    (set_task_info taskTableW "dns-a" "c0ffee" "" "S1").lookup "dns-b" =
      taskTableW.lookup "dns-b" ∧
    ("dns-b" : String) ≠ "dns-a" := by
  have h := c8_update_task_info taskTableW "dns-a" "c0ffee" "" "S1"
  exact ⟨by decide, h.2.2.1 taskW (by decide), h.1 "dns-b" (by decide), by decide⟩

/-!
## C1 — GetNode on a missing node (actor crash)
-/

/-- C1 evaluation at the failing input: `NodeList::get_node` itself returns
the not-found `Err`, but the actor-side handler `StateManager::get_node`
unwraps it, so a `GetNode` request for a name not in the node table panics
the actor thread (modelled by `Except.error`) instead of producing a
not-found reply, and the caller of `request_node` crashes with it. -/
theorem c1_get_node_missing_crashes :
    node_list_get_node nodeTableW "ghost" = Except.error "cannot find node" ∧
    state_get_node nodeTableW "ghost" =
      Except.error "panic: unwrap on Err: cannot find node" ∧
    request_node nodeTableW "ghost" =
      Except.error "panic: unwrap on Err: cannot find node" := by
  exact ⟨rfl, rfl, rfl⟩

/-!
## C4 — RUNNING update with missing torc IP
-/

/-- C4 evaluation: with the torc IP absent and the inspect hostname present
in the node table, the handler completes, stores the node IP and marks the
task Running; but with the hostname missing from the node table the
`request_node` fallback panics the actor (second conjunct), so the handler
does not complete and the task is never marked Running, contradicting the
claim that the empty string is stored in that case. -/
theorem c4_running_update_unknown_hostname_crashes :
    (∃ tbl2, handle_running_update nodeTableW taskTableW "dns-a" "c0ffee" "node-1"
        none "S1" = Except.ok tbl2 ∧
      get_task_state tbl2 "dns-a" = TaskState.Running ∧
      ∃ t, tbl2.lookup "dns-a" = some t ∧ t.ip = "10.0.0.1") ∧
    handle_running_update nodeTableW taskTableW "dns-a" "c0ffee" "ghosthost"
        none "S1" =
      Except.error "panic: unwrap on Err: cannot find node" := by
  constructor
  · refine ⟨_, rfl, by decide, _, rfl, by decide⟩
  · rfl

/-!
## C10 — the requested-task snapshot is not pruned within a batch
-/

/-- C10: a batch of two offers that both satisfy the same single requested
task (no dependency) produces a launch list with the same task name twice —
the snapshot loaded before the offer loop is scanned afresh for each offer. -/
theorem c10_snapshot_not_pruned :
    offersLoop depW [taskW] [("o1", offerW), ("o2", offerW)] =
      (["dns-a", "dns-a"], ["o1", "o2"], []) := by
  decide

/-!
## C3 — the key/value pairing loop
-/

/-- C3 counterexample: the parameters string `"-"` is non-empty and
tokenizes to zero tokens — an even count, so the stated precondition holds —
yet the pairing loop indexes out of bounds on its first pass (`pairLoop`
returns `none`, the panic marker), so it does not emit half as many entries. -/
theorem c3_counterexample :
    0 < ("-" : String).data.length ∧
    (tokenize ("-" : String).data).length % 2 = 0 ∧
    pairLoop (tokenize ("-" : String).data) = none := by
  decide

/-- Helper for C3: on any non-empty token list of even length the do-while
pairing loop succeeds, produces half as many pairs, and concatenating the
pairs back in order restores the token list. -/
theorem pairLoop_even {α : Type} : (l : List α) → l ≠ [] → l.length % 2 = 0 →
    ∃ ps, pairLoop l = some ps ∧ 2 * ps.length = l.length ∧
      (ps.map (fun p => [p.1, p.2])).flatten = l
  | [], h1, _ => absurd rfl h1
  | [_], _, h2 => by simp at h2
  | k :: v :: rest, _, h2 =>
    match rest, h2 with
    | [], _ => ⟨[(k, v)], rfl, rfl, rfl⟩
    | r :: rs, h2 => by
      have hr : (r :: rs : List α) ≠ [] := List.cons_ne_nil r rs
      have h2' : (r :: rs : List α).length % 2 = 0 := by
        simp only [List.length_cons] at h2 ⊢
        omega
      obtain ⟨ps, hps, hlen, hflat⟩ := pairLoop_even (r :: rs) hr h2'
      refine ⟨(k, v) :: ps, ?_, ?_, ?_⟩
      · simp [pairLoop, hps]
      · simp only [List.length_cons] at hlen ⊢
        omega
      · simp [hflat]

/-- C3 amended: for a matched task with a non-empty parameters string, under
the precondition that tokenizing the (possibly net-augmented) parameters
string yields an even AND non-zero number of tokens, the pairing loop
terminates without out-of-bounds access and emits exactly half as many
(key, value) entries, pairing consecutive tokens. -/
theorem c3_pair_loop (s : List Char) (h1 : tokenize s ≠ [])
    (h2 : (tokenize s).length % 2 = 0) :
    ∃ ps, pairLoop (tokenize s) = some ps ∧
      2 * ps.length = (tokenize s).length ∧
      (ps.map (fun p => [p.1, p.2])).flatten = tokenize s :=
  pairLoop_even _ h1 h2

/-- Witness for C3 at the concrete parameters string `--dns=8`, which has two
tokens. -/
theorem c3_witness :
    tokenize ("--dns=8" : String).data ≠ [] ∧
    (tokenize ("--dns=8" : String).data).length % 2 = 0 ∧
    ∃ ps, pairLoop (tokenize ("--dns=8" : String).data) = some ps ∧
      2 * ps.length = (tokenize ("--dns=8" : String).data).length ∧
      (ps.map (fun p => [p.1, p.2])).flatten = tokenize ("--dns=8" : String).data :=
  ⟨by decide, by decide, c3_pair_loop _ (by decide) (by decide)⟩

/-!
## C2 — the offer-to-task matching condition
-/

/-- C2: the matching test of the inner loop accepts a requested task for an
offer exactly when every non-empty placement filter equals the offer
attribute, the non-empty dependency is currently Running, and the offered
resources are at least the required ones; `findMatch` only returns tasks
passing that test; and a task with all filters empty and no dependency
matches an offer whose resources exactly equal its requirements. -/
theorem c2_offer_match (dep : String → TaskState) (o : OfferAttrs) :
    (∀ t, taskMatches dep o t = true ↔ matchesSpec dep o t) ∧
    (∀ ts t, findMatch dep o ts = some t → t ∈ ts ∧ taskMatches dep o t = true) ∧
    (∀ t, t.node_name = "" → t.node_type = "" → t.node_function = "" →
      t.dependent_service = "" → o.cpus = t.cpu → o.mem = t.memory →
      taskMatches dep o t = true) := by
  have hiff : ∀ t, taskMatches dep o t = true ↔ matchesSpec dep o t := by
    intro t
    unfold taskMatches matchesSpec
    constructor
    · intro h
      by_cases c1 : 0 < t.node_name.length ∧ t.node_name ≠ o.node_name
      · rw [if_pos c1] at h
        exact absurd h (by simp)
      · rw [if_neg c1] at h
        by_cases c2 : 0 < t.node_type.length ∧ t.node_type ≠ o.node_type
        · rw [if_pos c2] at h
          exact absurd h (by simp)
        · rw [if_neg c2] at h
          by_cases c3 : 0 < t.node_function.length ∧ t.node_function ≠ o.node_function
          · rw [if_pos c3] at h
            exact absurd h (by simp)
          · rw [if_neg c3] at h
            by_cases c4 : 0 < t.dependent_service.length ∧
                dep t.dependent_service ≠ TaskState.Running
            · rw [if_pos c4] at h
              exact absurd h (by simp)
            · rw [if_neg c4] at h
              by_cases c5 : o.cpus < t.cpu ∨ o.mem < t.memory
              · rw [if_pos c5] at h
                exact absurd h (by simp)
              · refine ⟨?_, ?_, ?_, ?_, ?_, ?_⟩
                · intro hne
                  by_contra hne2
                  exact c1 ⟨(string_length_pos _).mpr hne, hne2⟩
                · intro hne
                  by_contra hne2
                  exact c2 ⟨(string_length_pos _).mpr hne, hne2⟩
                · intro hne
                  by_contra hne2
                  exact c3 ⟨(string_length_pos _).mpr hne, hne2⟩
                · intro hne
                  by_contra hne2
                  exact c4 ⟨(string_length_pos _).mpr hne, hne2⟩
                · exact le_of_not_lt (fun hlt => c5 (Or.inl hlt))
                · exact le_of_not_lt (fun hlt => c5 (Or.inr hlt))
    · intro hs
      have n1 : ¬(0 < t.node_name.length ∧ t.node_name ≠ o.node_name) := by
        rintro ⟨hl, hne⟩
        exact hne (hs.1 ((string_length_pos _).mp hl))
      have n2 : ¬(0 < t.node_type.length ∧ t.node_type ≠ o.node_type) := by
        rintro ⟨hl, hne⟩
        exact hne (hs.2.1 ((string_length_pos _).mp hl))
      have n3 : ¬(0 < t.node_function.length ∧ t.node_function ≠ o.node_function) := by
        rintro ⟨hl, hne⟩
        exact hne (hs.2.2.1 ((string_length_pos _).mp hl))
      have n4 : ¬(0 < t.dependent_service.length ∧
          dep t.dependent_service ≠ TaskState.Running) := by
        rintro ⟨hl, hne⟩
        exact hne (hs.2.2.2.1 ((string_length_pos _).mp hl))
      have n5 : ¬(o.cpus < t.cpu ∨ o.mem < t.memory) := by
        rintro (hlt | hlt)
        · exact absurd hs.2.2.2.2.1 (not_le.mpr hlt)
        · exact absurd hs.2.2.2.2.2 (not_le.mpr hlt)
      rw [if_neg n1, if_neg n2, if_neg n3, if_neg n4, if_neg n5]
  refine ⟨hiff, ?_, ?_⟩
  · intro ts
    induction ts with
    | nil => intro t h; exact absurd h (by simp [findMatch])
    | cons a as ih =>
      intro t h
      unfold findMatch at h
      by_cases hm : taskMatches dep o a = true
      · rw [if_pos hm] at h
        cases h
        exact ⟨List.mem_cons_self a as, hm⟩
      · rw [if_neg hm] at h
        obtain ⟨hmem, hmt⟩ := ih t h
        exact ⟨List.mem_cons_of_mem a hmem, hmt⟩
  · intro t h1 h2 h3 h4 h5 h6
    refine (hiff t).mpr ⟨?_, ?_, ?_, ?_, le_of_eq h5.symm, le_of_eq h6.symm⟩
    · intro hne
      exact absurd h1 hne
    · intro hne
      exact absurd h2 hne
    · intro hne
      exact absurd h3 hne
    · intro hne
      exact absurd h4 hne

/-- Witness for C2: the fixture task has all filters empty and no dependency,
and the fixture offer carries exactly its cpu and memory, so it matches. -/
theorem c2_witness :
    taskW.node_name = "" ∧ taskW.node_type = "" ∧ taskW.node_function = "" ∧
    taskW.dependent_service = "" ∧ offerW.cpus = taskW.cpu ∧
    offerW.mem = taskW.memory ∧ taskMatches depW offerW taskW = true := by
  have h := (c2_offer_match depW offerW).2.2 taskW rfl rfl rfl rfl rfl rfl
  exact ⟨rfl, rfl, rfl, rfl, rfl, rfl, h⟩

/-!
## C9 — health supervisor SLA expansion
-/

/-- C9: SLA `None` expands a declared system service to one task with
unchanged name; `SingletonEachNode` to one clone per node with the node name
appended after a dash and `node_name` set to the node; `SingletonEachSlave`
to the same over the nodes of type `slave` only — zero slave-type nodes give
zero tasks. -/
theorem c9_sla_expansion (nodes : List Node) (task : Task) :
    (task.sla = SLA.None → expand_sla nodes task = [task]) ∧
    (task.sla = SLA.SingletonEachNode →
      (expand_sla nodes task).length = nodes.length ∧
      ∀ node ∈ nodes,
        { task with node_name := node.name, name := task.name ++ "-" ++ node.name } ∈
          expand_sla nodes task) ∧
    (task.sla = SLA.SingletonEachSlave →
      (expand_sla nodes task).length =
        (nodes.filter (fun node => node.node_type = "slave")).length ∧
      (∀ node ∈ nodes, node.node_type = "slave" →
        { task with node_name := node.name, name := task.name ++ "-" ++ node.name } ∈
          expand_sla nodes task) ∧
      ((∀ node ∈ nodes, node.node_type ≠ "slave") → expand_sla nodes task = [])) := by
  refine ⟨fun h => by simp [expand_sla, h], fun h => ?_, fun h => ?_⟩
  · constructor
    · simp [expand_sla, h]
    · intro node hn
      simp only [expand_sla, h, List.mem_map]
      exact ⟨node, hn, rfl⟩
  · refine ⟨by simp [expand_sla, h], ?_, ?_⟩
    · intro node hn hs
      simp only [expand_sla, h, List.mem_map]
      exact ⟨node, List.mem_filter.mpr ⟨hn, by simp [hs]⟩, rfl⟩
    · intro hall
      have hnil : nodes.filter (fun node => node.node_type = "slave") = [] := by
        rw [List.filter_eq_nil_iff]
        intro a ha
        simp [hall a ha]
      simp [expand_sla, h, hnil]

/-- Witness for C9: a single master-type node has no slave-type nodes, so the
SingletonEachSlave fixture service expands to zero tasks. -/
theorem c9_witness :
    taskS.sla = SLA.SingletonEachSlave ∧
    (∀ node ∈ [nodeM], node.node_type ≠ "slave") ∧
    expand_sla [nodeM] taskS = [] := by
  have h := (c9_sla_expansion [nodeM] taskS).2.2 rfl
  exact ⟨rfl, by decide, h.2.2 (by decide)⟩

/-!
## C7 — the Requested/Accepted/Running partition of the task table
-/

/-- Helper for C7: every entry of a reachable table is in state Requested,
Accepted or Running (NotRunning never occurs as a stored state). -/
theorem reachable_states (tbl : TaskTable) (h : Reachable tbl) :
    ∀ p ∈ tbl, p.2.state = TaskState.Requested ∨ p.2.state = TaskState.Accepted ∨
      p.2.state = TaskState.Running := by
  induction h with
  | empty =>
    intro p hp
    exact absurd hp (by simp)
  | start tbl d my_name resolved_args now _ ih =>
    intro p hp
    unfold send_start_task add_new_task at hp
    rcases List.mem_cons.mp hp with he | hm
    · subst he
      exact Or.inl rfl
    · exact ih p (List.mem_of_mem_filter hm)
  | accept tbl task_name _ ih =>
    intro p hp
    unfold set_task_state modify_entry at hp
    rcases List.mem_map.mp hp with ⟨q, hq, he⟩
    by_cases hk : q.1 = task_name
    · rw [if_pos hk] at he
      subst he
      exact Or.inr (Or.inl rfl)
    · rw [if_neg hk] at he
      subst he
      exact ih q hq
  | run tbl task_name _ ih =>
    intro p hp
    unfold set_task_state modify_entry at hp
    rcases List.mem_map.mp hp with ⟨q, hq, he⟩
    by_cases hk : q.1 = task_name
    · rw [if_pos hk] at he
      subst he
      exact Or.inr (Or.inr rfl)
    · rw [if_neg hk] at he
      subst he
      exact ih q hq
  | nodeName tbl task_name node_name _ ih =>
    intro p hp
    unfold set_task_node_name modify_entry at hp
    rcases List.mem_map.mp hp with ⟨q, hq, he⟩
    by_cases hk : q.1 = task_name
    · rw [if_pos hk] at he
      subst he
      exact ih q hq
    · rw [if_neg hk] at he
      subst he
      exact ih q hq
  | info tbl task_name task_id task_ip slave_id _ ih =>
    intro p hp
    unfold set_task_info modify_entry at hp
    rcases List.mem_map.mp hp with ⟨q, hq, he⟩
    by_cases hk : q.1 = task_name
    · rw [if_pos hk] at he
      subst he
      exact ih q hq
    · rw [if_neg hk] at he
      subst he
      exact ih q hq
  | remove tbl task_name _ ih =>
    intro p hp
    exact ih p (List.mem_of_mem_filter hp)

/-- Helper for C7: if every element of a task list is in one of the three
live states, the three state filters partition the list. -/
theorem filter_states_partition (l : List Task)
    (h : ∀ t ∈ l, t.state = TaskState.Requested ∨ t.state = TaskState.Accepted ∨
      t.state = TaskState.Running) :
    (l.filter (fun t => t.state = TaskState.Requested)).length +
      (l.filter (fun t => t.state = TaskState.Accepted)).length +
      (l.filter (fun t => t.state = TaskState.Running)).length = l.length := by
  induction l with
  | nil => rfl
  | cons a as ih =>
    have ha := h a (List.mem_cons_self a as)
    have ih' := ih (fun t ht => h t (List.mem_cons_of_mem a ht))
    rcases ha with h1 | h1 | h1 <;>
      simp [List.filter_cons, h1, List.length_cons] <;> omega

/-- C7: in every reachable table each entry is Requested, Accepted or
Running; GetRequestedTasks and GetRunningTasks return exactly the values in
those states; and the three groups partition the table. -/
theorem c7_state_partition (tbl : TaskTable) (h : Reachable tbl) :
    (∀ p ∈ tbl, p.2.state = TaskState.Requested ∨ p.2.state = TaskState.Accepted ∨
      p.2.state = TaskState.Running) ∧
    (∀ task, task ∈ get_tasks_with_state tbl TaskState.Requested ↔
      task ∈ tbl.map Prod.snd ∧ task.state = TaskState.Requested) ∧
    (∀ task, task ∈ get_tasks_with_state tbl TaskState.Running ↔
      task ∈ tbl.map Prod.snd ∧ task.state = TaskState.Running) ∧
    (get_tasks_with_state tbl TaskState.Requested).length +
      (get_tasks_with_state tbl TaskState.Accepted).length +
      (get_tasks_with_state tbl TaskState.Running).length = tbl.length := by
  refine ⟨reachable_states tbl h, ?_, ?_, ?_⟩
  · intro task
    simp [get_tasks_with_state, List.mem_filter]
  · intro task
    simp [get_tasks_with_state, List.mem_filter]
  · have hall : ∀ t ∈ tbl.map Prod.snd, t.state = TaskState.Requested ∨
        t.state = TaskState.Accepted ∨ t.state = TaskState.Running := by
      intro t ht
      rcases List.mem_map.mp ht with ⟨p, hp, he⟩
      subst he
      exact reachable_states tbl h p hp
    have := filter_states_partition (tbl.map Prod.snd) hall
    simpa [get_tasks_with_state, List.length_map] using this

/-- Witness for C7 at a concrete reachable table: start the fixture task on
the empty table; the partition equation holds there. -/
theorem c7_witness :
    (get_tasks_with_state tblStart TaskState.Requested).length +
      (get_tasks_with_state tblStart TaskState.Accepted).length +
      (get_tasks_with_state tblStart TaskState.Running).length = tblStart.length :=
  (c7_state_partition tblStart
    (Reachable.start [] taskW "torc-controller" "" 0 Reachable.empty)).2.2.2

end Torc
